import Mathlib

/-!
# Verification of the `todo` CLI task store (src/main.rs)

Shallow embedding of the task data model and the in-memory store operations
of the Rust CLI todo manager. Strings are Lean `String`s; the string
operations the source uses (`to_lowercase`, `trim`, `split(',')`) are
given structurally recursive models so that every definition evaluates
inside the kernel. Timestamps from `chrono` are modelled as explicit data:
`created_at` (a `Local::now()` call in the source) becomes an explicit
`now` parameter, and `NaiveDateTime` is a record of calendar fields.
Persistence (`save`) is file I/O; the in-memory effect of each operation is
what is modelled, with the fact of whether `save` was reached recorded
where a claim needs it.
-/

set_option autoImplicit false

deriving instance DecidableEq for Except

namespace Todo

/-- The `Priority` enum of the source. -/
inductive Priority where
  | low
  | medium
  | high
  | critical
deriving DecidableEq, Repr

/-- The `Category` enum of the source, with the payload-bearing
`Other(String)` variant. -/
inductive Category where
  | personal
  | work
  | shopping
  | health
  | other (label : String)
deriving DecidableEq, Repr

/-- Model of `chrono::NaiveDateTime` as parsed by the only format the
source uses, `%Y-%m-%d %H:%M`: seconds and nanoseconds are always zero,
so only the five parsed calendar fields are kept. The year is signed
(`%Y` accepts a leading sign). -/
structure NaiveDateTime where
  year : Int
  month : Nat
  day : Nat
  hour : Nat
  minute : Nat
deriving DecidableEq, Repr

/-- The `Task` struct. `created_at` (`DateTime<Local>` in the source) is
modelled as an opaque numeric timestamp supplied at construction. -/
structure Task where
  id : Nat
  title : String
  description : Option String
  completed : Bool
  created_at : Nat
  due_date : Option NaiveDateTime
  priority : Priority
  category : Category
  tags : List String
deriving DecidableEq, Repr

/-! ## String helpers

Structural models of the Rust string operations used by the source.
Rust's `to_lowercase` and `char::is_whitespace` are Unicode-aware; the
models below cover the ASCII range (`Char.toLower`, `Char.isWhitespace`),
which is faithful on all ASCII input. -/

/-- Model of Rust `str::to_lowercase`. -/
def lowerStr (s : String) : String := ⟨s.data.map Char.toLower⟩

/-- Model of Rust `str::trim`: surrounding whitespace removed. -/
def trimStr (s : String) : String :=
  ⟨((s.data.dropWhile Char.isWhitespace).reverse.dropWhile Char.isWhitespace).reverse⟩

/-- Split a character list at every `','`, keeping empty pieces, as Rust's
`str::split(',')` does (e.g. the empty string yields one empty piece). -/
def splitCommaAux : List Char → List (List Char)
  | [] => [[]]
  | c :: rest =>
    if c = ',' then [] :: splitCommaAux rest
    else
      match splitCommaAux rest with
      | [] => [[c]]
      | piece :: pieces => (c :: piece) :: pieces

/-- Model of Rust `str::split(',')` collected into a list of strings. -/
def splitComma (s : String) : List String := (splitCommaAux s.data).map String.mk

/-! ## Date parsing

Model of chrono's `NaiveDateTime::parse_from_str(s, "%Y-%m-%d %H:%M")`,
following chrono 0.4's `format::parse` item by item:
* a numeric item first skips leading whitespace, then consumes a greedy
  digit run of at most its width — 4 digits for an unsigned `%Y`, 2 for
  `%m`, `%d`, `%H`, `%M` — requiring at least one digit; `%Y` alone is
  signed: after a leading `+` or `-` the digit run is unbounded;
* a literal item (`-`, `:`) must match exactly, with no whitespace
  skipping;
* the space item in the format matches zero or more whitespace
  characters;
* the whole input must be consumed (trailing text is an error);
* the parsed fields must form a real calendar date and time: year within
  `NaiveDate`'s range, month 1–12, day within the month honouring leap
  years, hour ≤ 23, minute ≤ 59 (seconds default to zero).
Two flagged approximations: whitespace is the ASCII class of
`Char.isWhitespace` (Rust's is Unicode-aware), and chrono's `i64`
overflow error on an astronomically long signed digit run is subsumed by
the year-range check (both reject). The source propagates chrono's error
message inside the `"Invalid date format: {}"` string; the model keeps
the fixed prefix only. -/

/-- Drop leading whitespace, as chrono's `trim_start` steps do. -/
def skipWhitespace (cs : List Char) : List Char := cs.dropWhile Char.isWhitespace

/-- Take the whole leading run of decimal digits. -/
def takeDigits : List Char → List Char × List Char
  | [] => ([], [])
  | c :: rest =>
    if c.isDigit then
      match takeDigits rest with
      | (ds, r) => (c :: ds, r)
    else ([], c :: rest)

/-- Take the leading run of decimal digits, at most `n` of them. -/
def takeDigitsUpTo : Nat → List Char → List Char × List Char
  | 0, cs => ([], cs)
  | _ + 1, [] => ([], [])
  | n + 1, c :: rest =>
    if c.isDigit then
      match takeDigitsUpTo n rest with
      | (ds, r) => (c :: ds, r)
    else ([], c :: rest)

/-- Numeric value of a digit run. -/
def digitsVal (ds : List Char) : Nat :=
  ds.foldl (fun a c => a * 10 + (c.toNat - 48)) 0

/-- chrono's `scan::number(s, 1, w)`: greedily consume at most `w`
leading digits, requiring at least one; extra digits are left in the
input for the next item. -/
def scanNumber (w : Nat) (cs : List Char) : Option (Nat × List Char) :=
  match takeDigitsUpTo w cs with
  | ([], _) => none
  | (ds, rest) => some (digitsVal ds, rest)

/-- chrono's `scan::number(s, 1, usize::MAX)`: an unbounded greedy digit
run, used for the signed forms of `%Y`. -/
def scanNumberAll (cs : List Char) : Option (Nat × List Char) :=
  match takeDigits cs with
  | ([], _) => none
  | (ds, rest) => some (digitsVal ds, rest)

/-- The `%Y` item: leading whitespace skipped; an optional sign makes
the digit run unbounded, otherwise at most 4 digits are taken. -/
def parseYearField (cs : List Char) : Option (Int × List Char) :=
  match skipWhitespace cs with
  | '-' :: rest => (scanNumberAll rest).map (fun p => (-(p.1 : Int), p.2))
  | '+' :: rest => (scanNumberAll rest).map (fun p => ((p.1 : Int), p.2))
  | cs2 => (scanNumber 4 cs2).map (fun p => ((p.1 : Int), p.2))

/-- A 2-digit unsigned numeric item (`%m`, `%d`, `%H`, `%M`): leading
whitespace skipped, then at most 2 digits. -/
def parseNumField2 (cs : List Char) : Option (Nat × List Char) :=
  scanNumber 2 (skipWhitespace cs)

/-- Consume one expected literal character (no whitespace skipping). -/
def expectChar (c : Char) : List Char → Option (List Char)
  | [] => none
  | x :: rest => if x = c then some rest else none

/-- Proleptic Gregorian leap-year rule, on astronomical year numbers
(Euclidean remainders, so negative years behave as chrono's do). -/
def isLeapYear (y : Int) : Bool := y % 4 = 0 && (y % 100 ≠ 0 || y % 400 = 0)

/-- Days in a month of a given year. -/
def daysInMonth (y : Int) (m : Nat) : Nat :=
  if m = 2 then (if isLeapYear y then 29 else 28)
  else if m = 4 ∨ m = 6 ∨ m = 9 ∨ m = 11 then 30
  else 31

/-- The smallest year of a chrono `NaiveDate` (its `MIN` is
-262143-01-01). -/
def minYear : Int := -262143

/-- The largest year of a chrono `NaiveDate` (its `MAX` is
262142-12-31). -/
def maxYear : Int := 262142

/-- Model of `NaiveDateTime::parse_from_str(s, "%Y-%m-%d %H:%M")`; see
the section comment above for the item-by-item correspondence. -/
def parseNaiveDateTime (s : String) : Option NaiveDateTime := do
  let (y, r) ← parseYearField s.data
  let r ← expectChar '-' r
  let (mo, r) ← parseNumField2 r
  let r ← expectChar '-' r
  let (d, r) ← parseNumField2 r
  let r := skipWhitespace r
  let (h, r) ← parseNumField2 r
  let r ← expectChar ':' r
  let (mi, r) ← parseNumField2 r
  if r = [] ∧ minYear ≤ y ∧ y ≤ maxYear ∧ 1 ≤ mo ∧ mo ≤ 12 ∧ 1 ≤ d ∧ d ≤ daysInMonth y mo
      ∧ h ≤ 23 ∧ mi ≤ 59 then
    some ⟨y, mo, d, h, mi⟩
  else none

/-! ## Task construction (`Task::new`) -/

/-- The `match priority.to_lowercase().as_str()` arm of `Task::new` (and
of `edit_task`): the four recognized names, anything else is invalid. -/
def parsePriority (s : String) : Option Priority :=
  match lowerStr s with
  | "low" => some Priority.low
  | "medium" => some Priority.medium
  | "high" => some Priority.high
  | "critical" => some Priority.critical
  | _ => none

/-- The `match category.to_lowercase().as_str()` arm of `Task::new` (and
of `edit_task`): the wildcard arm binds the lowercased text, so the
`Other` payload is the lowercased input. -/
def parseCategory (s : String) : Category :=
  match lowerStr s with
  | "personal" => Category.personal
  | "work" => Category.work
  | "shopping" => Category.shopping
  | "health" => Category.health
  | other => Category.other other

/-- The tag computation of `Task::new`:
`tags.map(|t| t.split(',').map(|s| s.trim().to_string()).collect()).unwrap_or_default()`. -/
def parseTags (tags : Option String) : List String :=
  match tags with
  | some t => (splitComma t).map trimStr
  | none => []

/-- `Task::new`. Validation order follows the source: priority first,
then category (never fails), then the optional due date, then tags.
Errors are the source's `Err(String)` messages (the date error's chrono
detail suffix is omitted). -/
def Task.new (id : Nat) (title : String) (description : Option String)
    (due_date : Option String) (priority : String) (category : String)
    (tags : Option String) (now : Nat) : Except String Task :=
  match parsePriority priority with
  | none => Except.error "Invalid priority level"
  | some p =>
    let cat := parseCategory category
    match due_date with
    | some date_str =>
      match parseNaiveDateTime date_str with
      | none => Except.error "Invalid date format"
      | some d =>
        Except.ok { id := id, title := title, description := description,
                    completed := false, created_at := now, due_date := some d,
                    priority := p, category := cat, tags := parseTags tags }
    | none =>
      Except.ok { id := id, title := title, description := description,
                  completed := false, created_at := now, due_date := none,
                  priority := p, category := cat, tags := parseTags tags }

/-! ## Store operations (`TodoManager`)

The in-memory state is the `tasks: Vec<Task>` field; each method is a
function on `List Task`. `save` writes the whole collection to disk and
can only fail with an I/O error; its in-memory effect is nil, so a method
that reaches `save` is modelled as returning its mutated collection. -/

/-- The "not found" error string of the source. -/
def notFoundMsg (id : Nat) : String :=
  "Task with ID " ++ toString id ++ " not found"

/-- `TodoManager::add_task`: push onto the vector (then save). -/
def addTask (tasks : List Task) (task : Task) : List Task :=
  tasks ++ [task]

/-- `ListFilters` of the source. -/
structure ListFilters where
  category : Option String
  priority : Option String
  completed : Bool
  pending : Bool

/-- Rust `format!("{:?}", category)` for the derived `Debug` instance. -/
def categoryDebug : Category → String
  | Category.personal => "Personal"
  | Category.work => "Work"
  | Category.shopping => "Shopping"
  | Category.health => "Health"
  | Category.other s => "Other(\"" ++ s ++ "\")"

/-- Rust `format!("{:?}", priority)` for the derived `Debug` instance. -/
def priorityDebug : Priority → String
  | Priority.low => "Low"
  | Priority.medium => "Medium"
  | Priority.high => "High"
  | Priority.critical => "Critical"

/-- The `category_match` closure of `list_tasks`: an `Other` label is
compared verbatim with the filter text; a fixed variant's lowercased
debug name is compared with the filter text. Both comparisons are exact
(case-sensitive) on the filter side. -/
def categoryMatch (filter : Option String) (task : Task) : Bool :=
  match filter with
  | some c =>
    match task.category with
    | Category.other s => s == c
    | _ => c == lowerStr (categoryDebug task.category)
  | none => true

/-- The `priority_match` closure of `list_tasks`. -/
def priorityMatch (filter : Option String) (task : Task) : Bool :=
  match filter with
  | some p => lowerStr (priorityDebug task.priority) == p
  | none => true

/-- The `completion_match` computation of `list_tasks`: `completed` is
checked before `pending`. -/
def completionMatch (filters : ListFilters) (task : Task) : Bool :=
  if filters.completed then task.completed
  else if filters.pending then !task.completed
  else true

/-- The filter predicate of `list_tasks`. -/
def taskMatches (filters : ListFilters) (task : Task) : Bool :=
  categoryMatch filters.category task && priorityMatch filters.priority task
    && completionMatch filters task

/-- `TodoManager::list_tasks`: filter in storage order, no sorting. -/
def listTasks (tasks : List Task) (filters : ListFilters) : List Task :=
  tasks.filter (taskMatches filters)

/-- `TodoManager::complete_task`: set the completed flag of the first
task with the given id (then save); error if none matches. -/
def completeTask : List Task → Nat → Except String (List Task)
  | [], id => Except.error (notFoundMsg id)
  | t :: ts, id =>
    if t.id = id then Except.ok ({ t with completed := true } :: ts)
    else
      match completeTask ts id with
      | Except.ok ts' => Except.ok (t :: ts')
      | Except.error e => Except.error e

/-- `TodoManager::remove_task`: delete the first task with the given id,
shifting the rest (then save); error if none matches. -/
def removeTask : List Task → Nat → Except String (List Task)
  | [], id => Except.error (notFoundMsg id)
  | t :: ts, id =>
    if t.id = id then Except.ok ts
    else
      match removeTask ts id with
      | Except.ok ts' => Except.ok (t :: ts')
      | Except.error e => Except.error e

/-- `TodoManager::show_task`: return the first task with the given id. -/
def showTask (tasks : List Task) (id : Nat) : Except String Task :=
  match tasks.find? (fun t => t.id == id) with
  | some t => Except.ok t
  | none => Except.error (notFoundMsg id)

/-- `TaskUpdates` of the source. -/
structure TaskUpdates where
  title : Option String
  description : Option String
  due : Option String
  priority : Option String
  category : Option String
  tags : Option String

/-- The update with every field absent. -/
def emptyUpdates : TaskUpdates :=
  ⟨Option.none, Option.none, Option.none, Option.none, Option.none, Option.none⟩

/-- The tail of the edit body of `TodoManager::edit_task` from the
category step on: category and tags never fail, then the body falls
through to `save` with no error. -/
def applyUpdatesAfterPriority (t4 : Task) (u : TaskUpdates) : Option String × Task :=
  let t5 := match u.category with
    | some c => { t4 with category := parseCategory c }
    | none => t4
  let t6 := match u.tags with
    | some tg => { t5 with tags := (splitComma tg).map trimStr }
    | none => t5
  (none, t6)

/-- The tail of the edit body of `TodoManager::edit_task` from the
priority step on: an unrecognized priority returns early with the error,
leaving the task as mutated so far. -/
def applyUpdatesAfterDue (t3 : Task) (u : TaskUpdates) : Option String × Task :=
  match u.priority with
  | some p =>
    match parsePriority p with
    | none => (some "Invalid priority level", t3)
    | some pr => applyUpdatesAfterPriority { t3 with priority := pr } u
  | none => applyUpdatesAfterPriority t3 u

/-- The body of `TodoManager::edit_task` acting on the located task. The
source mutates the task in place field by field and returns early on a
validation failure, so the value after the early return keeps every field
written before it. The result is the error (if any) paired with the task
as left in memory. Field order follows the source: title, description,
due date (can fail), priority (can fail), category, tags. -/
def applyUpdates (t0 : Task) (u : TaskUpdates) : Option String × Task :=
  let t1 := match u.title with
    | some title => { t0 with title := title }
    | none => t0
  let t2 := match u.description with
    | some d => { t1 with description := some d }
    | none => t1
  match u.due with
  | some due_str =>
    match parseNaiveDateTime due_str with
    | none => (some "Invalid date format", t2)
    | some d => applyUpdatesAfterDue { t2 with due_date := some d } u
  | none => applyUpdatesAfterDue t2 u

/-- `TodoManager::edit_task` on the collection: find the first task with
the given id and run the edit body on it. Because the source edits
through a mutable reference, the partially updated task stays in the
collection even when the edit returns an error; only a missing id leaves
the collection untouched. -/
def editTask : List Task → Nat → TaskUpdates → Option String × List Task
  | [], id, _ => (some (notFoundMsg id), [])
  | t :: ts, id, u =>
    if t.id = id then
      match applyUpdates t u with
      | (err, t') => (err, t' :: ts)
    else
      match editTask ts id u with
      | (err, ts') => (err, t :: ts')

/-! ## Operation sequences

`main` runs one command per invocation; a reachable store state is the
fold of a sequence of mutating commands over the empty collection (the
collection a fresh store starts with). `Add` computes the new id as
`manager.tasks.len() + 1` in `main` before calling `Task::new`; a failed
construction or a failed lookup leaves the collection unchanged, and a
failed edit leaves the partially updated collection (see `editTask`). -/

/-- One mutating CLI command. -/
inductive Op where
  | add (title : String) (description : Option String) (due : Option String)
      (priority : String) (category : String) (tags : Option String) (now : Nat)
  | complete (id : Nat)
  | remove (id : Nat)
  | edit (id : Nat) (u : TaskUpdates)

/-- The in-memory effect of one command, as dispatched by `main`. -/
def applyOp (tasks : List Task) : Op → List Task
  | Op.add title d due p c tg now =>
    match Task.new (tasks.length + 1) title d due p c tg now with
    | Except.ok task => addTask tasks task
    | Except.error _ => tasks
  | Op.complete id =>
    match completeTask tasks id with
    | Except.ok ts => ts
    | Except.error _ => tasks
  | Op.remove id =>
    match removeTask tasks id with
    | Except.ok ts => ts
    | Except.error _ => tasks
  | Op.edit id u => (editTask tasks id u).2

/-- The store state after a sequence of commands from the empty store. -/
def run (ops : List Op) : List Task :=
  ops.foldl applyOp []


/-! ## Sample data

Concrete tasks, updates, and command sequences used by the concrete
scenarios in the theorems below. -/

/-- A stored task with id 1, title "old", low priority, personal
category, and no optional fields. -/
def sampleTask : Task :=
  { id := 1, title := "old", description := Option.none, completed := false,
    created_at := 0, due_date := Option.none, priority := Priority.low,
    category := Category.personal, tags := [] }

/-- A sample task with `High` priority. -/
def sampleHigh : Task := { sampleTask with priority := Priority.high }

/-- A sample task with the fixed `Work` category. -/
def sampleWork : Task := { sampleTask with category := Category.work }

/-- The task `Task.new 1 "" none none "low" "personal" none 0` builds. -/
def emptyTitleTask : Task := { sampleTask with title := "" }

/-- An `Add` command with valid fixed inputs and the given title. -/
def addOp (title : String) : Op :=
  Op.add title Option.none Option.none "low" "personal" Option.none 0

/-- A command sequence that leaves two tasks carrying the same id: the
third `Add` mints id `len + 1 = 2`, which the surviving task already
carries. -/
def dupOps : List Op := [addOp "a", addOp "b", Op.remove 1, addOp "c"]

/-- The partially updated task the edit body leaves behind when it fails
at the due-date step: title and description already overwritten, every
later field untouched. -/
def appliedTitleDesc (t : Task) (u : TaskUpdates) : Task :=
  { t with title := u.title.getD t.title,
           description := match u.description with
             | some d => some d
             | Option.none => t.description }

/-! ## Shared lemmas -/

/-- `find?` by id misses every list whose ids avoid the sought id. -/
lemma find?_by_id_eq_none (l : List Task) (id : Nat) (hid : id ∉ l.map Task.id) :
    l.find? (fun t' => t'.id == id) = Option.none := by
  rw [List.find?_eq_none]
  intro x hx
  simp only [beq_iff_eq]
  intro hxid
  exact hid (hxid ▸ List.mem_map_of_mem Task.id hx)

/-- `editTask` at the first task carrying the sought id: the edit body
runs on it, the rest of the collection is untouched. -/
lemma editTask_first_match (pre post : List Task) (t : Task) (u : TaskUpdates) (id : Nat)
    (hpre : ∀ t' ∈ pre, t'.id ≠ id) (ht : t.id = id) :
    editTask (pre ++ t :: post) id u
      = ((applyUpdates t u).1, pre ++ (applyUpdates t u).2 :: post) := by
  induction pre with
  | nil =>
    simp only [List.nil_append, editTask, if_pos ht]
  | cons q pre2 ih =>
    have hq : q.id ≠ id := hpre q (List.mem_cons_self q pre2)
    simp only [List.cons_append, editTask, if_neg hq, List.append_eq]
    rw [ih (fun t' ht' => hpre t' (List.mem_cons_of_mem q ht'))]

/-- Edit body on an unparseable due date: early error, title and
description already applied, every later field untouched. -/
lemma applyUpdates_due_parse_fail (t : Task) (u : TaskUpdates) (s : String)
    (hdue : u.due = some s) (hparse : parseNaiveDateTime s = Option.none) :
    applyUpdates t u = (some "Invalid date format", appliedTitleDesc t u) := by
  unfold applyUpdates appliedTitleDesc
  rw [hdue]
  cases u.title <;> cases u.description <;> simp [hparse]

/-- Edit body on an unrecognized priority: early error, title,
description (and the due date when supplied and parseable) already
applied, category and tags untouched. -/
lemma applyUpdates_priority_parse_fail (t : Task) (u : TaskUpdates) (p : String)
    (hp : u.priority = some p) (hparse : parsePriority p = Option.none) :
    (u.due = Option.none →
      applyUpdates t u = (some "Invalid priority level", appliedTitleDesc t u)) ∧
    (∀ s d, u.due = some s → parseNaiveDateTime s = some d →
      applyUpdates t u
        = (some "Invalid priority level",
           { appliedTitleDesc t u with due_date := some d })) := by
  constructor
  · intro hdue
    unfold applyUpdates applyUpdatesAfterDue appliedTitleDesc
    rw [hdue, hp]
    cases u.title <;> cases u.description <;> simp [hparse]
  · intro s d hdue hs
    unfold applyUpdates applyUpdatesAfterDue appliedTitleDesc
    rw [hdue, hp]
    cases u.title <;> cases u.description <;> simp [hs, hparse]

/-! ## Claim theorems -/

/-- C1, counterexample: an `Edit` whose due-date text does not parse
fails with the validation error, yet the targeted task's title has
already been overwritten ("old" became "new") — the edit is not atomic
as the claim states. -/
theorem edit_invalid_due_not_atomic :
    sampleTask.title = "old"
    ∧ (editTask [sampleTask] 1
        { emptyUpdates with title := some "new", due := some "2024-13-40 10:00" }).1
      = some "Invalid date format"
    ∧ ((editTask [sampleTask] 1
        { emptyUpdates with title := some "new", due := some "2024-13-40 10:00" }).2).map
          Task.title = ["new"] := by decide

/-- C1, amended: when the due-date or priority text of an `Edit` fails to
parse, the edit fails with the corresponding validation error, but the
fields applied before the failing check (title and description; plus the
due date when the priority is the one failing) keep their new values on
the targeted task, while every field after the failing check — and every
other task — is unchanged. -/
theorem edit_validation_fail_partial_apply (pre post : List Task) (t : Task)
    (u : TaskUpdates) (id : Nat)
    (hpre : ∀ t' ∈ pre, t'.id ≠ id) (ht : t.id = id) :
    (∀ s, u.due = some s → parseNaiveDateTime s = Option.none →
      editTask (pre ++ t :: post) id u
        = (some "Invalid date format", pre ++ appliedTitleDesc t u :: post)) ∧
    (∀ p, u.priority = some p → parsePriority p = Option.none → u.due = Option.none →
      editTask (pre ++ t :: post) id u
        = (some "Invalid priority level", pre ++ appliedTitleDesc t u :: post)) ∧
    (∀ p s d, u.priority = some p → parsePriority p = Option.none →
        u.due = some s → parseNaiveDateTime s = some d →
      editTask (pre ++ t :: post) id u
        = (some "Invalid priority level",
           pre ++ { appliedTitleDesc t u with due_date := some d } :: post)) := by
  refine ⟨?_, ?_, ?_⟩
  · intro s hdue hparse
    rw [editTask_first_match pre post t u id hpre ht,
      applyUpdates_due_parse_fail t u s hdue hparse]
  · intro p hp hparse hdue
    rw [editTask_first_match pre post t u id hpre ht,
      (applyUpdates_priority_parse_fail t u p hp hparse).1 hdue]
  · intro p s d hp hparse hdue hs
    rw [editTask_first_match pre post t u id hpre ht,
      (applyUpdates_priority_parse_fail t u p hp hparse).2 s d hdue hs]

/-- C1, witness: the amended theorem evaluated on a one-task store and an
update carrying a new title and an unparseable due date. -/
theorem edit_validation_fail_partial_apply_witness :
    editTask [sampleTask] 1 { emptyUpdates with title := some "new", due := some "bad" }
      = (some "Invalid date format",
         [appliedTitleDesc sampleTask
            { emptyUpdates with title := some "new", due := some "bad" }]) := by
  have h := (edit_validation_fail_partial_apply [] [] sampleTask
      { emptyUpdates with title := some "new", due := some "bad" } 1
      (by simp) rfl).1 "bad" rfl (by decide)
  simpa using h

/-- C2, counterexample: the non-matching category text "Urgent" is not
stored verbatim — the wildcard arm of the `match` binds the already
lowercased text, so the stored label is "urgent". -/
theorem taskNew_category_not_verbatim :
    (Task.new 1 "t" Option.none Option.none "low" "Urgent" Option.none 0).map Task.category
      = Except.ok (Category.other "urgent")
    ∧ Category.other "urgent" ≠ Category.other "Urgent" := by decide

/-- C2, amended: for every category text whose lowercase form matches
none of the four fixed names, construction (with a valid priority and no
due text) succeeds and stores the lowercase form of the supplied text —
not the text verbatim — as the user-defined label. -/
theorem taskNew_category_lowercased (id : Nat) (title : String) (description : Option String)
    (priority category : String) (tags : Option String) (now : Nat)
    (hc : lowerStr category ∉ (["personal", "work", "shopping", "health"] : List String)) :
    parseCategory category = Category.other (lowerStr category) ∧
    ∀ p, parsePriority priority = some p →
      (Task.new id title description Option.none priority category tags now).map Task.category
        = Except.ok (Category.other (lowerStr category)) := by
  have hcat : parseCategory category = Category.other (lowerStr category) := by
    unfold parseCategory
    split <;> simp_all
  refine ⟨hcat, fun p hp => ?_⟩
  unfold Task.new
  rw [hp]
  dsimp only [Except.map]
  rw [hcat]

/-- C2, witness: the amended theorem evaluated at the category text
"Urgent2". -/
theorem taskNew_category_lowercased_witness :
    parseCategory "Urgent2" = Category.other "urgent2" ∧
    (Task.new 1 "t" Option.none Option.none "low" "Urgent2" Option.none 0).map Task.category
      = Except.ok (Category.other "urgent2") := by
  have h := taskNew_category_lowercased 1 "t" Option.none "low" "Urgent2" Option.none 0
    (by decide)
  exact ⟨by have := h.1; simpa using this, by have := h.2 Priority.low (by decide); simpa using this⟩

/-- C3, counterexample: filtering is not case-insensitive in the filter
text — the priority filter "High" selects nothing from a store holding a
`High`-priority task while "high" selects it, and likewise "Work" versus
"work" for the category filter. -/
theorem listTasks_filter_case_sensitive_cex :
    listTasks [sampleHigh] ⟨Option.none, some "High", false, false⟩ = []
    ∧ listTasks [sampleHigh] ⟨Option.none, some "high", false, false⟩ = [sampleHigh]
    ∧ listTasks [sampleWork] ⟨some "Work", Option.none, false, false⟩ = []
    ∧ listTasks [sampleWork] ⟨some "work", Option.none, false, false⟩ = [sampleWork] := by
  decide

/-- C3, amended: a task matches a priority filter iff the filter text
equals, case-sensitively, the lowercased name of its priority; it matches
a category filter iff the filter text equals the stored label exactly
(user-defined categories) or the lowercased variant name (fixed
categories). Only the task's side is lowercased, so the filter must be
supplied in lowercase to match a fixed variant. -/
theorem listTasks_filter_exact_match (tasks : List Task) (p c : String) :
    listTasks tasks ⟨Option.none, some p, false, false⟩
      = tasks.filter (fun t => lowerStr (priorityDebug t.priority) == p) ∧
    listTasks tasks ⟨some c, Option.none, false, false⟩
      = tasks.filter (fun t =>
          match t.category with
          | Category.other s => s == c
          | _ => c == lowerStr (categoryDebug t.category)) := by
  constructor
  · unfold listTasks
    apply List.filter_congr
    intro t _
    simp [taskMatches, categoryMatch, priorityMatch, completionMatch]
  · unfold listTasks
    apply List.filter_congr
    intro t _
    simp only [taskMatches, categoryMatch, priorityMatch, completionMatch, Bool.and_true]
    cases t.category <;> simp

/-- C4, counterexample: after `Add` (task id 1) and a successful
`Remove(1)`, the next `Add` mints id `0 + 1 = 1` again — the removed
task's id is reassigned. -/
theorem removed_id_reassigned :
    run [addOp "a"] = [{ sampleTask with title := "a" }]
    ∧ removeTask [{ sampleTask with title := "a" }] 1 = Except.ok []
    ∧ run [addOp "a", Op.remove 1, addOp "b"] = [{ sampleTask with title := "b" }]
    ∧ ({ sampleTask with title := "b" } : Task).id = 1 := by decide

/-- C4, amended: `Add` always assigns the id `current collection size +
1` to the task it appends, with no memory of removed ids — so once a
`Remove` has shrunk the collection, a later `Add` can reassign a removed
(or even a still-present) task's id. -/
theorem add_assigns_size_plus_one (tasks : List Task) (title : String)
    (description due tags : Option String) (priority category : String) (now : Nat) (t : Task)
    (h : Task.new (tasks.length + 1) title description due priority category tags now
      = Except.ok t) :
    applyOp tasks (Op.add title description due priority category tags now) = tasks ++ [t]
    ∧ t.id = tasks.length + 1 := by
  constructor
  · simp only [applyOp, h, addTask]
  · unfold Task.new at h
    cases hp : parsePriority priority with
    | none => rw [hp] at h; exact absurd h (by simp)
    | some p =>
      rw [hp] at h
      cases due with
      | none => simp only at h; cases h; rfl
      | some s =>
        simp only at h
        cases hd : parseNaiveDateTime s with
        | none => rw [hd] at h; exact absurd h (by simp)
        | some d => rw [hd] at h; cases h; rfl

/-- C4, witness: the amended theorem evaluated on the empty store. -/
theorem add_assigns_size_plus_one_witness :
    applyOp [] (Op.add "a" Option.none Option.none "low" "personal" Option.none 0)
      = [{ sampleTask with title := "a" }]
    ∧ ({ sampleTask with title := "a" } : Task).id = 1 := by
  have h := add_assigns_size_plus_one [] "a" Option.none Option.none Option.none "low"
    "personal" 0 { sampleTask with title := "a" } (by decide)
  simpa using h

/-- C5, counterexample: a reachable store (`Add`, `Add`, `Remove(1)`,
`Add`) holds two tasks with id 2; `Remove(2)` then succeeds, removing
only the first, and `ShowById(2)` still finds the second instead of
returning the not-found error. -/
theorem remove_then_show_found_cex :
    (run dupOps).map Task.id = [2, 2]
    ∧ removeTask (run dupOps) 2 = Except.ok [{ sampleTask with id := 2, title := "c" }]
    ∧ showTask [{ sampleTask with id := 2, title := "c" }] 2
        = Except.ok { sampleTask with id := 2, title := "c" } := by decide

/-- C5, amended: on a store whose task ids are pairwise distinct, a
successful `Remove(k)` makes an immediately following `ShowById(k)`
return the not-found error. (Duplicate ids are reachable — see the
counterexample — and then only the first task with id k is removed.) -/
theorem removeTask_then_showTask_notFound (tasks ts : List Task) (id : Nat)
    (hnodup : (tasks.map Task.id).Nodup)
    (h : removeTask tasks id = Except.ok ts) :
    showTask ts id = Except.error (notFoundMsg id) := by
  induction tasks generalizing ts with
  | nil => simp [removeTask] at h
  | cons t rest ih =>
    simp only [List.map_cons, List.nodup_cons] at hnodup
    by_cases hid : t.id = id
    · simp only [removeTask, if_pos hid] at h
      injection h with h2
      subst h2
      unfold showTask
      rw [find?_by_id_eq_none _ id (by rw [← hid]; exact hnodup.1)]
    · simp only [removeTask, if_neg hid] at h
      cases hr : removeTask rest id with
      | error e => rw [hr] at h; exact absurd h (by simp)
      | ok ts2 =>
        rw [hr] at h
        injection h with h2
        subst h2
        have hrec := ih ts2 hnodup.2 hr
        unfold showTask at hrec ⊢
        have hfind : ts2.find? (fun t' => t'.id == id) = Option.none := by
          cases hf : ts2.find? (fun t' => t'.id == id) with
          | none => rfl
          | some x => rw [hf] at hrec; exact absurd hrec (by simp)
        have hbid : (t.id == id) = false := by simp [hid]
        simp [List.find?, hbid, hfind]

/-- C5, witness: the amended theorem evaluated on the one-task store. -/
theorem removeTask_then_showTask_notFound_witness :
    showTask [] 1 = Except.error (notFoundMsg 1) :=
  removeTask_then_showTask_notFound [sampleTask] [] 1 (by decide) (by decide)

/-- C6, counterexample: `Task::new` performs no title validation —
construction with the empty title succeeds and stores it. -/
theorem taskNew_empty_title :
    (Task.new 1 "" Option.none Option.none "low" "personal" Option.none 0).map Task.title
      = Except.ok "" := by decide

/-- C6, amended: the title is stored verbatim and unvalidated — whatever
text (empty included) is supplied to `Task::new` or to an `Edit` title
update becomes the task's title; no operation enforces non-emptiness. -/
theorem title_stored_verbatim :
    (∀ id title description due priority category tags now t,
      Task.new id title description due priority category tags now = Except.ok t →
      t.title = title) ∧
    (∀ t0 u s, u.title = some s → ((applyUpdates t0 u).2).title = s) := by
  constructor
  · intro id title description due priority category tags now t h
    unfold Task.new at h
    cases hp : parsePriority priority with
    | none => rw [hp] at h; exact absurd h (by simp)
    | some p =>
      rw [hp] at h
      cases due with
      | none => simp only at h; cases h; rfl
      | some s =>
        simp only at h
        cases hd : parseNaiveDateTime s with
        | none => rw [hd] at h; exact absurd h (by simp)
        | some d => rw [hd] at h; cases h; rfl
  · intro t0 u s hs
    have hprio : ∀ t, ((applyUpdatesAfterPriority t u).2).title = t.title := by
      intro t
      unfold applyUpdatesAfterPriority
      cases u.category <;> cases u.tags <;> rfl
    have hdue : ∀ t, ((applyUpdatesAfterDue t u).2).title = t.title := by
      intro t
      unfold applyUpdatesAfterDue
      cases u.priority with
      | none => exact hprio t
      | some p =>
        dsimp only
        cases parsePriority p with
        | none => rfl
        | some pr => exact hprio _
    unfold applyUpdates
    rw [hs]
    dsimp only
    cases u.due with
    | none =>
      dsimp only
      rw [hdue]
      cases u.description <;> rfl
    | some s2 =>
      dsimp only
      cases parseNaiveDateTime s2 with
      | none =>
        dsimp only
        cases u.description <;> rfl
      | some d =>
        dsimp only
        rw [hdue]
        cases u.description <;> rfl

/-- C6, witness: both parts of the amended theorem evaluated on the empty
title. -/
theorem title_stored_verbatim_witness :
    emptyTitleTask.title = ""
    ∧ ((applyUpdates sampleTask { emptyUpdates with title := some "" }).2).title = "" :=
  ⟨title_stored_verbatim.1 1 "" Option.none Option.none "low" "personal" Option.none 0
      emptyTitleTask (by decide),
   title_stored_verbatim.2 sampleTask { emptyUpdates with title := some "" } "" rfl⟩

/-- C7: with no category or priority filter, `List` with the completed
flag set returns exactly the tasks whose completed flag is true, in
storage (insertion) order, whatever the pending flag is — so when both
flags are set the completed one takes precedence and the result is the
completed subset. -/
theorem listTasks_completed_exact (tasks : List Task) (pending : Bool) :
    listTasks tasks ⟨Option.none, Option.none, true, pending⟩
      = tasks.filter (fun t => t.completed) := by
  unfold listTasks
  apply List.filter_congr
  intro t _
  simp [taskMatches, categoryMatch, priorityMatch, completionMatch]

/-- C8: `Task::new` recognizes a priority text iff its lowercase form is
one of the four names (so any letter case of those four is accepted);
an unrecognized priority fails with the invalid-priority error whatever
the due text is; with a recognized priority, construction succeeds when
the due text is absent or parses, and fails with the invalid-date error
when a supplied due text does not parse. -/
theorem taskNew_validation (id : Nat) (title : String) (description : Option String)
    (priority category : String) (tags : Option String) (now : Nat) :
    ((parsePriority priority).isSome
       ↔ lowerStr priority ∈ (["low", "medium", "high", "critical"] : List String)) ∧
    (parsePriority priority = Option.none →
      ∀ due : Option String,
        Task.new id title description due priority category tags now
          = Except.error "Invalid priority level") ∧
    (∀ p, parsePriority priority = some p →
      Task.new id title description Option.none priority category tags now
        = Except.ok { id := id, title := title, description := description,
                      completed := false, created_at := now, due_date := Option.none,
                      priority := p, category := parseCategory category,
                      tags := parseTags tags }) ∧
    (∀ p s d, parsePriority priority = some p → parseNaiveDateTime s = some d →
      Task.new id title description (some s) priority category tags now
        = Except.ok { id := id, title := title, description := description,
                      completed := false, created_at := now, due_date := some d,
                      priority := p, category := parseCategory category,
                      tags := parseTags tags }) ∧
    (∀ p s, parsePriority priority = some p → parseNaiveDateTime s = Option.none →
      Task.new id title description (some s) priority category tags now
        = Except.error "Invalid date format") := by
  refine ⟨?_, ?_, ?_, ?_, ?_⟩
  · unfold parsePriority
    split <;> simp_all
  · intro hp due
    unfold Task.new
    rw [hp]
  · intro p hp
    unfold Task.new
    rw [hp]
  · intro p s d hp hs
    unfold Task.new
    rw [hp]
    dsimp only
    rw [hs]
  · intro p s hp hs
    unfold Task.new
    rw [hp]
    dsimp only
    rw [hs]

/-- C8, witness: construction with the uppercase priority "LOW" (parsed
successfully) and the invalid due text "2024-13-40 10:00" fails with the
invalid-date error. -/
theorem taskNew_validation_witness :
    Task.new 1 "t" Option.none (some "2024-13-40 10:00") "LOW" "personal" Option.none 0
      = Except.error "Invalid date format" :=
  (taskNew_validation 1 "t" Option.none "LOW" "personal" Option.none 0).2.2.2.2
    Priority.low "2024-13-40 10:00" (by decide) (by decide)

/-- C9: every task `Task::new` produces carries, when a tags text was
supplied, the ordered sequence obtained by splitting the text on commas
and trimming surrounding whitespace from each piece — empty pieces and
duplicates kept — and the empty sequence when it was absent. -/
theorem taskNew_tags_split_trim (id : Nat) (title : String) (description : Option String)
    (due : Option String) (priority category : String) (tags : Option String) (now : Nat)
    (t : Task) (h : Task.new id title description due priority category tags now = Except.ok t) :
    t.tags = (match tags with
      | some txt => (splitComma txt).map trimStr
      | Option.none => []) := by
  unfold Task.new at h
  cases hp : parsePriority priority with
  | none => rw [hp] at h; exact absurd h (by simp)
  | some p =>
    rw [hp] at h
    cases due with
    | none =>
      simp only at h
      cases h
      cases tags <;> rfl
    | some s =>
      simp only at h
      cases hd : parseNaiveDateTime s with
      | none => rw [hd] at h; exact absurd h (by simp)
      | some d =>
        rw [hd] at h
        cases h
        cases tags <;> rfl

/-- C9, witness: the tags text " a ,b,,c d " yields the pieces
["a", "b", "", "c d"], trimmed, empty piece kept. -/
theorem taskNew_tags_split_trim_witness :
    (Task.new 1 "t" Option.none Option.none "low" "personal" (some " a ,b,,c d ") 0).map Task.tags
      = Except.ok ["a", "b", "", "c d"] := by
  have h : Task.new 1 "t" Option.none Option.none "low" "personal" (some " a ,b,,c d ") 0
      = Except.ok { id := 1, title := "t", description := Option.none, completed := false,
                    created_at := 0, due_date := Option.none, priority := Priority.low,
                    category := Category.personal, tags := ["a", "b", "", "c d"] } := by decide
  have := taskNew_tags_split_trim 1 "t" Option.none Option.none "low" "personal"
    (some " a ,b,,c d ") 0 _ h
  rw [h]
  simp [Except.map]

/-- C10: completing a task is idempotent on the in-memory collection —
if `Complete(id)` succeeds and yields a collection, running
`Complete(id)` again on that collection succeeds and yields it
unchanged. -/
theorem completeTask_idempotent (tasks ts : List Task) (id : Nat)
    (h : completeTask tasks id = Except.ok ts) :
    completeTask ts id = Except.ok ts := by
  induction tasks generalizing ts with
  | nil => simp [completeTask] at h
  | cons t rest ih =>
    by_cases hid : t.id = id
    · simp only [completeTask, if_pos hid] at h
      cases h
      simp [completeTask, hid]
    · simp only [completeTask, if_neg hid] at h
      cases hrest : completeTask rest id with
      | error e => rw [hrest] at h; exact absurd h (by simp)
      | ok ts2 =>
        rw [hrest] at h
        cases h
        simp only [completeTask, if_neg hid, ih ts2 hrest]

/-- C10, witness: the theorem evaluated on the one-task store, whose
`Complete(1)` marks the task completed. -/
theorem completeTask_idempotent_witness :
    completeTask [{ sampleTask with completed := true }] 1
      = Except.ok [{ sampleTask with completed := true }] :=
  completeTask_idempotent [sampleTask] _ 1 (by decide)

end Todo
